import Mathlib

/-!
Shallow embedding of the NBR (Normalized Burn Ratio) computation pipeline of
`src/frontend/src/components/ol-maps/NBRCalculator.tsx`.

Numeric samples and NBR values are modelled over `ℚ` (the source computes with
JavaScript numbers); pixel buffers are lists; the React component state that
drives caching and request deduplication is an explicit record, and each
relevant handler of the component is a pure state-transition function.
-/

/-- The `noDataValue` sentinel posted to the worker (`noDataValue: -9999`). -/
def noDataValue : ℚ := -9999

/-- The reflectance scale factor of the worker (`const scaleFactor = 0.0001`). -/
def scaleFactor : ℚ := 1 / 10000

/-- Running-minimum update of the worker loop: `if (nbrValue < minValue) minValue = nbrValue`,
with `none` standing for the initial `Infinity`. -/
def updMin (m : Option ℚ) (v : ℚ) : Option ℚ :=
  match m with
  | none => some v
  | some m0 => if v < m0 then some v else some m0

/-- Running-maximum update of the worker loop: `if (nbrValue > maxValue) maxValue = nbrValue`,
with `none` standing for the initial `-Infinity`. -/
def updMax (m : Option ℚ) (v : ℚ) : Option ℚ :=
  match m with
  | none => some v
  | some m0 => if m0 < v then some v else some m0

/-- The per-pixel value computed by the worker loop of `createWorker`: the
no-data test on the raw samples, the scaling by `scaleFactor`, the
`denominator > 0.001` test, and the `[-1, 1]` range test, branch for branch
(the source's `nir`, `swir`, `denominator` and `nbrValue` locals are written
out inline). -/
def nbrPixel (rawNir rawSwir : ℚ) : ℚ :=
  if rawNir = 0 ∨ rawSwir = 0 ∨ 65000 < rawNir ∨ 65000 < rawSwir then noDataValue
  else if 1 / 1000 < rawNir * scaleFactor + rawSwir * scaleFactor then
    if -1 ≤ (rawNir * scaleFactor - rawSwir * scaleFactor) /
              (rawNir * scaleFactor + rawSwir * scaleFactor) ∧
       (rawNir * scaleFactor - rawSwir * scaleFactor) /
              (rawNir * scaleFactor + rawSwir * scaleFactor) ≤ 1 then
      (rawNir * scaleFactor - rawSwir * scaleFactor) /
        (rawNir * scaleFactor + rawSwir * scaleFactor)
    else noDataValue
  else noDataValue

/-- One iteration of the worker's per-pixel loop (`createWorker`, the body of
`for (let i = pixelIndex; i < endIndex; i++)`): the output value for one pixel
together with the running min/max accumulator, which is updated exactly in the
branch where the source updates it. -/
def workerStep (acc : Option ℚ × Option ℚ) (rawNir rawSwir : ℚ) :
    ℚ × (Option ℚ × Option ℚ) :=
  if rawNir = 0 ∨ rawSwir = 0 ∨ 65000 < rawNir ∨ 65000 < rawSwir then (noDataValue, acc)
  else if 1 / 1000 < rawNir * scaleFactor + rawSwir * scaleFactor then
    if -1 ≤ (rawNir * scaleFactor - rawSwir * scaleFactor) /
              (rawNir * scaleFactor + rawSwir * scaleFactor) ∧
       (rawNir * scaleFactor - rawSwir * scaleFactor) /
              (rawNir * scaleFactor + rawSwir * scaleFactor) ≤ 1 then
      ((rawNir * scaleFactor - rawSwir * scaleFactor) /
         (rawNir * scaleFactor + rawSwir * scaleFactor),
       (updMin acc.1 ((rawNir * scaleFactor - rawSwir * scaleFactor) /
          (rawNir * scaleFactor + rawSwir * scaleFactor)),
        updMax acc.2 ((rawNir * scaleFactor - rawSwir * scaleFactor) /
          (rawNir * scaleFactor + rawSwir * scaleFactor))))
    else (noDataValue, acc)
  else (noDataValue, acc)

/-- The worker's whole pixel loop over the zipped sample buffers, threading the
running min/max accumulator. Chunking (`chunkSize = 10000`) only batches
progress messages and does not change any computed value, so the loop is
modelled as one pass. -/
def workerGo : List (ℚ × ℚ) → (Option ℚ × Option ℚ) → List ℚ × (Option ℚ × Option ℚ)
  | [], acc => ([], acc)
  | p :: ps, acc =>
    let r := workerStep acc p.1 p.2
    let rest := workerGo ps r.2
    (r.1 :: rest.1, rest.2)

/-- The `complete` message of the worker: the output buffer and the final
min/max after the `Infinity`/`-Infinity` fallbacks. -/
structure WorkerResult where
  nbrValues : List ℚ
  minValue : ℚ
  maxValue : ℚ

/-- The whole worker computation (`createWorker`): per-pixel values plus
`minValue: minValue === Infinity ? -1 : minValue` and
`maxValue: maxValue === -Infinity ? 1 : maxValue`. -/
def runWorker (nirData swirData : List ℚ) : WorkerResult :=
  let r := workerGo (nirData.zip swirData) (none, none)
  { nbrValues := r.1
    minValue := (r.2.1).getD (-1)
    maxValue := (r.2.2).getD 1 }

/-- Modelled from the claim text of C1 (the spec's per-pixel band-math rule),
for comparison with `nbrPixel`. -/
def nbrPixelFromSpec (rawNir rawSwir : ℚ) : ℚ :=
  if rawNir = 0 ∨ rawSwir = 0 ∨ 65000 < rawNir ∨ 65000 < rawSwir then -9999
  else if rawNir * (1 / 10000) + rawSwir * (1 / 10000) ≤ 1 / 1000 then -9999
  else if (rawNir * (1 / 10000) - rawSwir * (1 / 10000)) /
            (rawNir * (1 / 10000) + rawSwir * (1 / 10000)) < -1 ∨
          1 < (rawNir * (1 / 10000) - rawSwir * (1 / 10000)) /
            (rawNir * (1 / 10000) + rawSwir * (1 / 10000)) then -9999
  else (rawNir * (1 / 10000) - rawSwir * (1 / 10000)) /
         (rawNir * (1 / 10000) + rawSwir * (1 / 10000))

/-- The `NBR_COLOR_MAP` lookup record; an unknown name yields the transparent
`nodata` color, matching the record's `'nodata': [0, 0, 0, 0]` entry. -/
def NBR_COLOR_MAP (name : String) : ℕ × ℕ × ℕ × ℕ :=
  if name = "severe" then (220, 0, 0, 255)
  else if name = "high" then (255, 0, 0, 255)
  else if name = "moderate-high" then (255, 50, 0, 255)
  else if name = "moderate" then (255, 150, 0, 255)
  else if name = "low" then (255, 255, 0, 255)
  else if name = "regrowth-low" then (50, 180, 50, 255)
  else if name = "regrowth-mod" then (0, 100, 0, 255)
  else if name = "regrowth-high" then (0, 50, 0, 255)
  else (0, 0, 0, 0)

/-- The severity classifier `getNBRColor`, branch for branch. -/
def getNBRColor (nbrValue : ℚ) : ℕ × ℕ × ℕ × ℕ :=
  if nbrValue = -9999 then NBR_COLOR_MAP "nodata"
  else if nbrValue < -(7 / 10) then NBR_COLOR_MAP "severe"
  else if nbrValue < -(44 / 100) then NBR_COLOR_MAP "high"
  else if nbrValue < -(25 / 100) then NBR_COLOR_MAP "moderate-high"
  else if nbrValue < -(1 / 10) then NBR_COLOR_MAP "moderate"
  else if nbrValue < 1 / 10 then NBR_COLOR_MAP "low"
  else if nbrValue < 27 / 100 then NBR_COLOR_MAP "regrowth-low"
  else if nbrValue < 44 / 100 then NBR_COLOR_MAP "regrowth-mod"
  else if nbrValue < 7 / 10 then NBR_COLOR_MAP "regrowth-high"
  else NBR_COLOR_MAP "nodata"

/-- A resolved pixel window `(x1, y1, x2, y2)` into the first band's grid. -/
structure PixelWindow where
  x1 : ℤ
  y1 : ℤ
  x2 : ℤ
  y2 : ℤ
deriving DecidableEq

/-- The window resolver of `calculateNBR`: maps the geographic extent
`(e0, e1, e2, e3)` (the transformed `mapBboxWgs84`) to a pixel window of the
first band via its bounding box `(b0, b1, b2, b3)` and dimensions, with the
`Math.max(0, Math.floor ...)` / `Math.min(dim, Math.ceil ...)` clamps and the
full-image fallback for a degenerate window. -/
def resolveWindow (e0 e1 e2 e3 b0 b1 b2 b3 : ℚ) (width height : ℤ) : PixelWindow :=
  let nirX1 := max 0 ⌊(width : ℚ) * (e0 - b0) / (b2 - b0)⌋
  let nirY1 := max 0 ⌊(height : ℚ) * (1 - (e3 - b1) / (b3 - b1))⌋
  let nirX2 := min width ⌈(width : ℚ) * (e2 - b0) / (b2 - b0)⌉
  let nirY2 := min height ⌈(height : ℚ) * (1 - (e1 - b1) / (b3 - b1))⌉
  if nirX2 ≤ nirX1 ∨ nirY2 ≤ nirY1 then
    ⟨0, 0, width, height⟩
  else
    ⟨nirX1, nirY1, nirX2, nirY2⟩

/-- `calculateDownsamplingFactor`: 4 above 4,000,000 pixels, 2 above 2,000,000,
else 1. -/
def calculateDownsamplingFactor (width height : ℕ) : ℕ :=
  if 4000000 < width * height then 4
  else if 2000000 < width * height then 2
  else 1

/-- The decode size requested from `readRasters` by `calculateNBR`: when the
downsampling factor exceeds 1 the options carry
`width = Math.ceil(windowWidth / factor)` and
`height = Math.ceil(windowHeight / factor)`; otherwise no size is requested
(full window resolution). -/
def readRequestSize (windowWidth windowHeight : ℕ) : Option (ℕ × ℕ) :=
  let downsamplingFactor := calculateDownsamplingFactor windowWidth windowHeight
  if 1 < downsamplingFactor then
    some (⌈(windowWidth : ℚ) / (downsamplingFactor : ℚ)⌉.toNat,
          ⌈(windowHeight : ℚ) / (downsamplingFactor : ℚ)⌉.toNat)
  else
    none

/-- The single cached result (`interface CacheEntry`). -/
structure CacheEntry where
  key : String
  nbrValues : List ℚ
  minValue : ℚ
  maxValue : ℚ
  width : ℕ
  height : ℕ
  extent : List ℚ
deriving DecidableEq

/-- The component state that drives caching and deduplication: `isLoading`,
`calculationKey`, `isNBRProcessed` and the single-slot `cacheRef`. -/
structure CalcState where
  isLoading : Bool
  calculationKey : Option String
  isNBRProcessed : Bool
  cache : Option CacheEntry
deriving DecidableEq

/-- What one invocation of `calculateNBR` does before any asynchronous work. -/
inductive RequestAction where
  | skippedAlreadyProcessed
  | servedFromCache (entry : CacheEntry)
  | skippedInFlight
  | startedComputation
deriving DecidableEq

/-- The cache test of `calculateNBR`:
`cacheRef.current && cacheRef.current.key === currentKey`. -/
def cacheHit (currentKey : String) (s : CalcState) : Option CacheEntry :=
  match s.cache with
  | some entry => if entry.key = currentKey then some entry else none
  | none => none

/-- The synchronous head of `calculateNBR` for a given computation key: the
`isNBRProcessed` short-circuit, the cache check, the in-flight key check, and
otherwise the state writes (`setCalculationKey`, `setIsNBRProcessed(true)`,
`setIsLoading(true)`) that start a new computation. -/
def requestStep (currentKey : String) (s : CalcState) : CalcState × RequestAction :=
  if s.isNBRProcessed then (s, RequestAction.skippedAlreadyProcessed)
  else
    match cacheHit currentKey s with
    | some entry => (s, RequestAction.servedFromCache entry)
    | none =>
      if s.calculationKey = some currentKey then (s, RequestAction.skippedInFlight)
      else
        ({ s with
            calculationKey := some currentKey
            isNBRProcessed := true
            isLoading := true },
         RequestAction.startedComputation)

/-- The worker `complete` handler: stores the freshly computed entry in
`cacheRef.current` (replacing whatever was there) and clears the loading state. -/
def completeStep (currentKey : String) (nbrValues : List ℚ) (minValue maxValue : ℚ)
    (width height : ℕ) (extent : List ℚ) (s : CalcState) : CalcState :=
  { s with
      cache := some ⟨currentKey, nbrValues, minValue, maxValue, width, height, extent⟩
      isLoading := false }

/-- The `catch` handler of `calculateNBR`: `setIsNBRProcessed(false)` and
`setIsLoading(false)`; `calculationKey` and the cache are left untouched. -/
def failStep (s : CalcState) : CalcState :=
  { s with isNBRProcessed := false, isLoading := false }

/-- The effect on `[nirUrl, swirUrl, extent]`: resets `isNBRProcessed` and
`calculationKey` when the inputs change. -/
def inputsChangedStep (s : CalcState) : CalcState :=
  { s with isNBRProcessed := false, calculationKey := none }

/-- The visibility effect when `visible` turns false: resets `isNBRProcessed`
and `calculationKey` but keeps the cache ("Don't clear cache"). -/
def hiddenStep (s : CalcState) : CalcState :=
  { s with isNBRProcessed := false, calculationKey := none }

/-- The computation key of `calculateNBR`:
`` `${nirUrl}-${swirUrl}-${extent.join(',')}` ``, with the extent's coordinates
already rendered to strings. -/
def computationKey (nirUrl swirUrl : String) (extent : List String) : String :=
  nirUrl ++ "-" ++ swirUrl ++ "-" ++ String.intercalate "," extent

/-! ### Worker lemmas shared by the band-math theorems -/

lemma workerStep_fst (acc : Option ℚ × Option ℚ) (a b : ℚ) :
    (workerStep acc a b).1 = nbrPixel a b := by
  unfold workerStep nbrPixel
  split_ifs <;> rfl

lemma nbrPixel_eq_fromSpec (a b : ℚ) : nbrPixel a b = nbrPixelFromSpec a b := by
  unfold nbrPixel nbrPixelFromSpec scaleFactor noDataValue
  by_cases h1 : a = 0 ∨ b = 0 ∨ 65000 < a ∨ 65000 < b
  · simp only [if_pos h1]
  · simp only [if_neg h1]
    by_cases h2 : (1 : ℚ) / 1000 < a * (1 / 10000) + b * (1 / 10000)
    · simp only [if_pos h2, if_neg (not_le.mpr h2)]
      by_cases h3 : -1 ≤ (a * (1 / 10000) - b * (1 / 10000)) / (a * (1 / 10000) + b * (1 / 10000)) ∧
          (a * (1 / 10000) - b * (1 / 10000)) / (a * (1 / 10000) + b * (1 / 10000)) ≤ 1
      · rw [if_pos h3, if_neg]
        push_neg
        exact ⟨h3.1, h3.2⟩
      · rw [if_neg h3, if_pos]
        rcases not_and_or.mp h3 with h | h
        · left; exact not_le.mp h
        · right; exact not_le.mp h
    · simp only [if_neg h2, if_pos (not_lt.mp h2)]

lemma workerStep_snd (acc : Option ℚ × Option ℚ) (a b : ℚ) :
    (workerStep acc a b).2 =
      if nbrPixel a b = noDataValue then acc
      else (updMin acc.1 (nbrPixel a b), updMax acc.2 (nbrPixel a b)) := by
  unfold workerStep nbrPixel
  by_cases h1 : a = 0 ∨ b = 0 ∨ 65000 < a ∨ 65000 < b
  · simp only [if_pos h1]
    simp
  · simp only [if_neg h1]
    by_cases h2 : (1 : ℚ) / 1000 < a * scaleFactor + b * scaleFactor
    · simp only [if_pos h2]
      by_cases h3 : -1 ≤ (a * scaleFactor - b * scaleFactor) / (a * scaleFactor + b * scaleFactor) ∧
          (a * scaleFactor - b * scaleFactor) / (a * scaleFactor + b * scaleFactor) ≤ 1
      · simp only [if_pos h3]
        rw [if_neg]
        intro hcon
        have hlt : noDataValue < -1 := by norm_num [noDataValue]
        rw [hcon] at h3
        linarith [h3.1]
      · simp only [if_neg h3]
        simp
    · simp only [if_neg h2]
      simp

lemma workerGo_fst (ps : List (ℚ × ℚ)) (acc : Option ℚ × Option ℚ) :
    (workerGo ps acc).1 = ps.map fun p => nbrPixel p.1 p.2 := by
  induction ps generalizing acc with
  | nil => rfl
  | cons p ps ih => simp [workerGo, workerStep_fst, ih]

lemma workerGo_snd (ps : List (ℚ × ℚ)) (acc : Option ℚ × Option ℚ) :
    (workerGo ps acc).2 =
      ((ps.map fun p => nbrPixel p.1 p.2).filter fun v => v ≠ noDataValue).foldl
        (fun a v => (updMin a.1 v, updMax a.2 v)) acc := by
  induction ps generalizing acc with
  | nil => rfl
  | cons p ps ih =>
    by_cases h : nbrPixel p.1 p.2 = noDataValue
    · simp [workerGo, ih, workerStep_snd, h, List.filter_cons]
    · simp [workerGo, ih, workerStep_snd, h, List.filter_cons]

lemma updMin_some (m v : ℚ) : updMin (some m) v = some (min m v) := by
  rw [show updMin (some m) v = if v < m then some v else some m from rfl]
  split_ifs with h
  · rw [min_eq_right h.le]
  · rw [min_eq_left (not_lt.mp h)]

lemma updMax_some (m v : ℚ) : updMax (some m) v = some (max m v) := by
  rw [show updMax (some m) v = if m < v then some v else some m from rfl]
  split_ifs with h
  · rw [max_eq_right h.le]
  · rw [max_eq_left (not_lt.mp h)]

lemma foldMM_split (l : List ℚ) (p : Option ℚ × Option ℚ) :
    l.foldl (fun a v => (updMin a.1 v, updMax a.2 v)) p =
      (l.foldl updMin p.1, l.foldl updMax p.2) := by
  induction l generalizing p with
  | nil => rfl
  | cons x xs ih => simp [List.foldl_cons, ih]

lemma foldl_updMin_some (as : List ℚ) (a : ℚ) :
    as.foldl updMin (some a) = some (as.foldl min a) := by
  induction as generalizing a with
  | nil => rfl
  | cons x xs ih => simp [List.foldl_cons, updMin_some, ih]

lemma foldl_updMax_some (as : List ℚ) (a : ℚ) :
    as.foldl updMax (some a) = some (as.foldl max a) := by
  induction as generalizing a with
  | nil => rfl
  | cons x xs ih => simp [List.foldl_cons, updMax_some, ih]

lemma foldl_min_spec (as : List ℚ) (a : ℚ) :
    as.foldl min a ∈ a :: as ∧ ∀ v ∈ a :: as, as.foldl min a ≤ v := by
  induction as generalizing a with
  | nil =>
    constructor
    · simp
    · intro v hv
      rw [List.mem_singleton] at hv
      subst hv
      exact le_refl _
  | cons x xs ih =>
    obtain ⟨hmem, hle⟩ := ih (min a x)
    rw [List.foldl_cons]
    constructor
    · rcases List.mem_cons.mp hmem with h | h
      · rw [h]
        rcases min_choice a x with h2 | h2 <;> rw [h2]
        · exact List.mem_cons_self _ _
        · exact List.mem_cons_of_mem _ (List.mem_cons_self _ _)
      · exact List.mem_cons_of_mem _ (List.mem_cons_of_mem _ h)
    · intro v hv
      rcases List.mem_cons.mp hv with h | h
      · subst h
        exact le_trans (hle _ (List.mem_cons_self _ _)) (min_le_left _ _)
      · rcases List.mem_cons.mp h with h2 | h2
        · subst h2
          exact le_trans (hle _ (List.mem_cons_self _ _)) (min_le_right _ _)
        · exact hle _ (List.mem_cons_of_mem _ h2)

lemma foldl_max_spec (as : List ℚ) (a : ℚ) :
    as.foldl max a ∈ a :: as ∧ ∀ v ∈ a :: as, v ≤ as.foldl max a := by
  induction as generalizing a with
  | nil =>
    constructor
    · simp
    · intro v hv
      rw [List.mem_singleton] at hv
      subst hv
      exact le_refl _
  | cons x xs ih =>
    obtain ⟨hmem, hle⟩ := ih (max a x)
    rw [List.foldl_cons]
    constructor
    · rcases List.mem_cons.mp hmem with h | h
      · rw [h]
        rcases max_choice a x with h2 | h2 <;> rw [h2]
        · exact List.mem_cons_self _ _
        · exact List.mem_cons_of_mem _ (List.mem_cons_self _ _)
      · exact List.mem_cons_of_mem _ (List.mem_cons_of_mem _ h)
    · intro v hv
      rcases List.mem_cons.mp hv with h | h
      · subst h
        exact le_trans (le_max_left _ _) (hle _ (List.mem_cons_self _ _))
      · rcases List.mem_cons.mp h with h2 | h2
        · subst h2
          exact le_trans (le_max_right _ _) (hle _ (List.mem_cons_self _ _))
        · exact hle _ (List.mem_cons_of_mem _ h2)

lemma runWorker_nbrValues (nirData swirData : List ℚ) :
    (runWorker nirData swirData).nbrValues =
      (nirData.zip swirData).map fun p => nbrPixel p.1 p.2 :=
  workerGo_fst _ _

lemma runWorker_acc (nirData swirData : List ℚ) :
    (runWorker nirData swirData).minValue =
      ((((nirData.zip swirData).map fun p => nbrPixel p.1 p.2).filter
          fun v => v ≠ noDataValue).foldl updMin none).getD (-1) ∧
    (runWorker nirData swirData).maxValue =
      ((((nirData.zip swirData).map fun p => nbrPixel p.1 p.2).filter
          fun v => v ≠ noDataValue).foldl updMax none).getD 1 := by
  have h2 := workerGo_snd (nirData.zip swirData) (none, none)
  constructor
  · show ((workerGo (nirData.zip swirData) (none, none)).2.1).getD (-1) = _
    rw [h2, foldMM_split]
  · show ((workerGo (nirData.zip swirData) (none, none)).2.2).getD 1 = _
    rw [h2, foldMM_split]

/-! ### Claim theorems -/

/-- C1: for equal-length raw sample buffers and every pixel index, the worker's
output is the sentinel when `rawNir == 0 or rawSwir == 0 or rawNir > 65000 or
rawSwir > 65000`; otherwise, scaling both by 0.0001, it is the sentinel when
`nir + swir <= 0.001`, the sentinel when `(nir - swir) / (nir + swir)` lies
outside `[-1, 1]`, and otherwise exactly `(nir - swir) / (nir + swir)` —
i.e. the per-pixel output equals the claim's formula `nbrPixelFromSpec`. -/
theorem runWorker_pixel_formula (nirData swirData : List ℚ)
    (hlen : nirData.length = swirData.length) (i : ℕ)
    (h1 : i < nirData.length) (h2 : i < swirData.length)
    (h3 : i < (runWorker nirData swirData).nbrValues.length) :
    (runWorker nirData swirData).nbrValues.get ⟨i, h3⟩ =
      nbrPixelFromSpec (nirData.get ⟨i, h1⟩) (swirData.get ⟨i, h2⟩) := by
  have hL := runWorker_nbrValues nirData swirData
  simp only [List.get_eq_getElem]
  rw [List.getElem_of_eq hL, List.getElem_map, List.getElem_zip, nbrPixel_eq_fromSpec]

/-- Witness for C1: at buffers `[4000]` and `[2000]`, pixel 0 of the worker
output equals the spec formula. -/
theorem runWorker_pixel_formula_witness :
    (runWorker [(4000 : ℚ)] [(2000 : ℚ)]).nbrValues.get
        ⟨0, by rw [runWorker_nbrValues]; decide⟩ =
      nbrPixelFromSpec 4000 2000 :=
  runWorker_pixel_formula [4000] [2000] rfl 0 (by decide) (by decide)
    (by rw [runWorker_nbrValues]; decide)

/-- C2: the reported `(minValue, maxValue)` pair is the minimum and maximum
over exactly the non-sentinel output values — every non-sentinel output is
bounded by the pair, and the pair is attained among the non-sentinel outputs —
and when every output pixel is the sentinel the fallback pair `(-1, 1)` is
reported. -/
theorem runWorker_minmax_valid (nirData swirData : List ℚ) :
    ((runWorker nirData swirData).nbrValues.filter (fun v => v ≠ noDataValue) = [] →
      (runWorker nirData swirData).minValue = -1 ∧
      (runWorker nirData swirData).maxValue = 1) ∧
    (∀ v ∈ (runWorker nirData swirData).nbrValues, v ≠ noDataValue →
      (runWorker nirData swirData).minValue ≤ v ∧
      v ≤ (runWorker nirData swirData).maxValue) ∧
    ((runWorker nirData swirData).nbrValues.filter (fun v => v ≠ noDataValue) ≠ [] →
      (runWorker nirData swirData).minValue ∈
        (runWorker nirData swirData).nbrValues.filter (fun v => v ≠ noDataValue) ∧
      (runWorker nirData swirData).maxValue ∈
        (runWorker nirData swirData).nbrValues.filter (fun v => v ≠ noDataValue)) := by
  obtain ⟨hmin, hmax⟩ := runWorker_acc nirData swirData
  have hL := runWorker_nbrValues nirData swirData
  rw [hL, hmin, hmax]
  cases hv : ((nirData.zip swirData).map fun p => nbrPixel p.1 p.2).filter
      (fun v => v ≠ noDataValue) with
  | nil =>
    refine ⟨fun _ => ⟨rfl, rfl⟩, ?_, fun hne => absurd rfl hne⟩
    intro v hvmem hvne
    exfalso
    have hmem : v ∈ ((nirData.zip swirData).map fun p => nbrPixel p.1 p.2).filter
        (fun v => v ≠ noDataValue) :=
      List.mem_filter.mpr ⟨hvmem, by simpa using hvne⟩
    rw [hv] at hmem
    exact absurd hmem (List.not_mem_nil v)
  | cons x xs =>
    rw [List.foldl_cons, List.foldl_cons,
        show updMin none x = some x from rfl, show updMax none x = some x from rfl,
        foldl_updMin_some, foldl_updMax_some]
    simp only [Option.getD_some]
    obtain ⟨hminmem, hminle⟩ := foldl_min_spec xs x
    obtain ⟨hmaxmem, hmaxle⟩ := foldl_max_spec xs x
    refine ⟨fun hcon => absurd hcon (by simp), ?_, fun _ => ⟨hminmem, hmaxmem⟩⟩
    intro v hvmem hvne
    have hmem : v ∈ x :: xs := by
      rw [← hv]
      exact List.mem_filter.mpr ⟨hvmem, by simpa using hvne⟩
    exact ⟨hminle v hmem, hmaxle v hmem⟩

/-- Witness for C2: on the all-sentinel input `[0]`, `[0]`, the reported pair
is exactly `(-1, 1)`. -/
theorem runWorker_minmax_valid_witness :
    (runWorker [(0 : ℚ)] [(0 : ℚ)]).minValue = -1 ∧
    (runWorker [(0 : ℚ)] [(0 : ℚ)]).maxValue = 1 :=
  (runWorker_minmax_valid [0] [0]).1 (by rfl)

/-- C3: the classifier maps the sentinel `-9999` to fully transparent, assigns
the eight severity classes by the ordered strict upper bounds `-0.7`, `-0.44`,
`-0.25`, `-0.1`, `0.1`, `0.27`, `0.44`, `0.7` as half-open ranges, classifies
exactly `-0.25` as "moderate" (not "moderate-high"), and maps every value
`>= 0.7` (including exactly `0.7`) to fully transparent. -/
theorem getNBRColor_classification :
    getNBRColor (-9999) = (0, 0, 0, 0) ∧
    getNBRColor (-(25 / 100)) = (255, 150, 0, 255) ∧
    (∀ v : ℚ, v ≠ -9999 → v < -(7 / 10) → getNBRColor v = (220, 0, 0, 255)) ∧
    (∀ v : ℚ, -(7 / 10) ≤ v → v < -(44 / 100) → getNBRColor v = (255, 0, 0, 255)) ∧
    (∀ v : ℚ, -(44 / 100) ≤ v → v < -(25 / 100) → getNBRColor v = (255, 50, 0, 255)) ∧
    (∀ v : ℚ, -(25 / 100) ≤ v → v < -(1 / 10) → getNBRColor v = (255, 150, 0, 255)) ∧
    (∀ v : ℚ, -(1 / 10) ≤ v → v < 1 / 10 → getNBRColor v = (255, 255, 0, 255)) ∧
    (∀ v : ℚ, 1 / 10 ≤ v → v < 27 / 100 → getNBRColor v = (50, 180, 50, 255)) ∧
    (∀ v : ℚ, 27 / 100 ≤ v → v < 44 / 100 → getNBRColor v = (0, 100, 0, 255)) ∧
    (∀ v : ℚ, 44 / 100 ≤ v → v < 7 / 10 → getNBRColor v = (0, 50, 0, 255)) ∧
    (∀ v : ℚ, 7 / 10 ≤ v → getNBRColor v = (0, 0, 0, 0)) := by
  refine ⟨by decide, ?_, ?_, ?_, ?_, ?_, ?_, ?_, ?_, ?_, ?_⟩
  · unfold getNBRColor
    norm_num
    decide
  · intro v hne hb
    unfold getNBRColor
    rw [if_neg hne, if_pos hb]
    decide
  · intro v ha hb
    have hne : v ≠ -9999 := by intro hcon; rw [hcon] at ha; norm_num at ha
    unfold getNBRColor
    rw [if_neg hne]
    split_ifs <;> first | decide | linarith
  · intro v ha hb
    have hne : v ≠ -9999 := by intro hcon; rw [hcon] at ha; norm_num at ha
    unfold getNBRColor
    rw [if_neg hne]
    split_ifs <;> first | decide | linarith
  · intro v ha hb
    have hne : v ≠ -9999 := by intro hcon; rw [hcon] at ha; norm_num at ha
    unfold getNBRColor
    rw [if_neg hne]
    split_ifs <;> first | decide | linarith
  · intro v ha hb
    have hne : v ≠ -9999 := by intro hcon; rw [hcon] at ha; norm_num at ha
    unfold getNBRColor
    rw [if_neg hne]
    split_ifs <;> first | decide | linarith
  · intro v ha hb
    have hne : v ≠ -9999 := by intro hcon; rw [hcon] at ha; norm_num at ha
    unfold getNBRColor
    rw [if_neg hne]
    split_ifs <;> first | decide | linarith
  · intro v ha hb
    have hne : v ≠ -9999 := by intro hcon; rw [hcon] at ha; norm_num at ha
    unfold getNBRColor
    rw [if_neg hne]
    split_ifs <;> first | decide | linarith
  · intro v ha hb
    have hne : v ≠ -9999 := by intro hcon; rw [hcon] at ha; norm_num at ha
    unfold getNBRColor
    rw [if_neg hne]
    split_ifs <;> first | decide | linarith
  · intro v ha
    have hne : v ≠ -9999 := by intro hcon; rw [hcon] at ha; norm_num at ha
    unfold getNBRColor
    rw [if_neg hne]
    split_ifs <;> first | decide | linarith

/-- Witness for C3: the boundary value `0.7` itself maps to fully transparent,
and `-0.25` maps to the "moderate" color. -/
theorem getNBRColor_classification_witness :
    getNBRColor (7 / 10) = (0, 0, 0, 0) ∧ getNBRColor (-(25 / 100)) = (255, 150, 0, 255) :=
  ⟨(getNBRColor_classification).2.2.2.2.2.2.2.2.2.2 (7 / 10) (le_refl _),
   (getNBRColor_classification).2.1⟩

/-- C10: the classifier is total — every value is mapped to one of the nine
colors of `NBR_COLOR_MAP` — and at the low end only the exact sentinel `-9999`
is transparent: every other value below `-0.7` (including `-9998` and
`-10000`, outside the nominal NBR domain) gets the "severe" color. -/
theorem getNBRColor_total_severe :
    (∀ v : ℚ, getNBRColor v ∈ [(220, 0, 0, 255), (255, 0, 0, 255), (255, 50, 0, 255),
        (255, 150, 0, 255), (255, 255, 0, 255), (50, 180, 50, 255), (0, 100, 0, 255),
        (0, 50, 0, 255), ((0 : ℕ), (0 : ℕ), (0 : ℕ), (0 : ℕ))]) ∧
    (∀ v : ℚ, v ≠ -9999 → v < -(7 / 10) → getNBRColor v = (220, 0, 0, 255)) := by
  constructor
  · intro v
    unfold getNBRColor
    split_ifs <;> decide
  · intro v hne hb
    unfold getNBRColor
    rw [if_neg hne, if_pos hb]
    decide

/-- Witness for C10: `-9998` and `-10000` both classify as "severe", not as
transparent. -/
theorem getNBRColor_total_severe_witness :
    getNBRColor (-9998) = (220, 0, 0, 255) ∧ getNBRColor (-10000) = (220, 0, 0, 255) :=
  ⟨getNBRColor_total_severe.2 (-9998) (by norm_num) (by norm_num),
   getNBRColor_total_severe.2 (-10000) (by norm_num) (by norm_num)⟩

/-- C4: the resolver maps the extent to a pixel window with left/top
floor-clamped to 0 and right/bottom ceiling-clamped to width/height, replaces
any degenerate window (right ≤ left or bottom ≤ top) by the full-image window
`(0, 0, width, height)` — in particular for an extent entirely outside the
raster's bounding box — and is total (never fails). -/
theorem resolveWindow_clamp_fallback :
    (∀ e0 e1 e2 e3 b0 b1 b2 b3 : ℚ, ∀ width height : ℤ,
      resolveWindow e0 e1 e2 e3 b0 b1 b2 b3 width height =
        if min width ⌈(width : ℚ) * (e2 - b0) / (b2 - b0)⌉ ≤
             max 0 ⌊(width : ℚ) * (e0 - b0) / (b2 - b0)⌋ ∨
           min height ⌈(height : ℚ) * (1 - (e1 - b1) / (b3 - b1))⌉ ≤
             max 0 ⌊(height : ℚ) * (1 - (e3 - b1) / (b3 - b1))⌋
        then ⟨0, 0, width, height⟩
        else ⟨max 0 ⌊(width : ℚ) * (e0 - b0) / (b2 - b0)⌋,
              max 0 ⌊(height : ℚ) * (1 - (e3 - b1) / (b3 - b1))⌋,
              min width ⌈(width : ℚ) * (e2 - b0) / (b2 - b0)⌉,
              min height ⌈(height : ℚ) * (1 - (e1 - b1) / (b3 - b1))⌉⟩) ∧
    (∀ e0 e1 e2 e3 b0 b1 b2 b3 : ℚ, ∀ width height : ℤ,
      b0 < b2 → b1 < b3 → 0 ≤ width → 0 ≤ height →
      (e2 ≤ b0 ∨ b2 ≤ e0 ∨ e3 ≤ b1 ∨ b3 ≤ e1) →
      resolveWindow e0 e1 e2 e3 b0 b1 b2 b3 width height = ⟨0, 0, width, height⟩) := by
  constructor
  · intro e0 e1 e2 e3 b0 b1 b2 b3 width height
    rfl
  · intro e0 e1 e2 e3 b0 b1 b2 b3 width height hb02 hb13 hw hh hout
    have hb02' : (0 : ℚ) < b2 - b0 := by linarith
    have hb13' : (0 : ℚ) < b3 - b1 := by linarith
    have hwq : (0 : ℚ) ≤ (width : ℚ) := by exact_mod_cast hw
    have hhq : (0 : ℚ) ≤ (height : ℚ) := by exact_mod_cast hh
    unfold resolveWindow
    rw [if_pos]
    rcases hout with h | h | h | h
    · left
      have hnum : (width : ℚ) * (e2 - b0) ≤ 0 :=
        mul_nonpos_of_nonneg_of_nonpos hwq (by linarith)
      have hq : (width : ℚ) * (e2 - b0) / (b2 - b0) ≤ 0 :=
        div_nonpos_of_nonpos_of_nonneg hnum (le_of_lt hb02')
      have hceil : ⌈(width : ℚ) * (e2 - b0) / (b2 - b0)⌉ ≤ 0 :=
        Int.ceil_le.mpr (by exact_mod_cast hq)
      calc min width ⌈(width : ℚ) * (e2 - b0) / (b2 - b0)⌉
          ≤ ⌈(width : ℚ) * (e2 - b0) / (b2 - b0)⌉ := min_le_right _ _
        _ ≤ 0 := hceil
        _ ≤ max 0 ⌊(width : ℚ) * (e0 - b0) / (b2 - b0)⌋ := le_max_left _ _
    · left
      have hge : (width : ℚ) ≤ (width : ℚ) * (e0 - b0) / (b2 - b0) := by
        rw [le_div_iff₀ hb02']
        have hsub : b2 - b0 ≤ e0 - b0 := by linarith
        nlinarith
      have hfloor : width ≤ ⌊(width : ℚ) * (e0 - b0) / (b2 - b0)⌋ := Int.le_floor.mpr hge
      calc min width ⌈(width : ℚ) * (e2 - b0) / (b2 - b0)⌉
          ≤ width := min_le_left _ _
        _ ≤ ⌊(width : ℚ) * (e0 - b0) / (b2 - b0)⌋ := hfloor
        _ ≤ max 0 ⌊(width : ℚ) * (e0 - b0) / (b2 - b0)⌋ := le_max_right _ _
    · right
      have hfrac : (e3 - b1) / (b3 - b1) ≤ 0 :=
        div_nonpos_of_nonpos_of_nonneg (by linarith) (le_of_lt hb13')
      have hge : (height : ℚ) ≤ (height : ℚ) * (1 - (e3 - b1) / (b3 - b1)) := by nlinarith
      have hfloor : height ≤ ⌊(height : ℚ) * (1 - (e3 - b1) / (b3 - b1))⌋ :=
        Int.le_floor.mpr hge
      calc min height ⌈(height : ℚ) * (1 - (e1 - b1) / (b3 - b1))⌉
          ≤ height := min_le_left _ _
        _ ≤ ⌊(height : ℚ) * (1 - (e3 - b1) / (b3 - b1))⌋ := hfloor
        _ ≤ max 0 ⌊(height : ℚ) * (1 - (e3 - b1) / (b3 - b1))⌋ := le_max_right _ _
    · right
      have hfrac : 1 ≤ (e1 - b1) / (b3 - b1) := by
        rw [le_div_iff₀ hb13']
        linarith
      have harg : (height : ℚ) * (1 - (e1 - b1) / (b3 - b1)) ≤ 0 :=
        mul_nonpos_of_nonneg_of_nonpos hhq (by linarith)
      have hceil : ⌈(height : ℚ) * (1 - (e1 - b1) / (b3 - b1))⌉ ≤ 0 :=
        Int.ceil_le.mpr (by exact_mod_cast harg)
      calc min height ⌈(height : ℚ) * (1 - (e1 - b1) / (b3 - b1))⌉
          ≤ ⌈(height : ℚ) * (1 - (e1 - b1) / (b3 - b1))⌉ := min_le_right _ _
        _ ≤ 0 := hceil
        _ ≤ max 0 ⌊(height : ℚ) * (1 - (e3 - b1) / (b3 - b1))⌋ := le_max_left _ _

/-- Witness for C4: an extent lying entirely to the right of the unit-square
bounding box resolves to the full-image window of a 5×5 raster. -/
theorem resolveWindow_clamp_fallback_witness :
    resolveWindow 10 10 11 11 0 0 1 1 5 5 = ⟨0, 0, 5, 5⟩ :=
  resolveWindow_clamp_fallback.2 10 10 11 11 0 0 1 1 5 5 (by norm_num) (by norm_num)
    (by norm_num) (by norm_num) (Or.inr (Or.inl (by norm_num)))

/-- C5: the downsampler is a pure function of the window dimensions — factor 4
above 4,000,000 pixels, factor 2 above 2,000,000, factor 1 otherwise, so
2,500×2,000 gives 4, 1,500×1,500 gives 2 and 1,000×1,000 gives 1 — and when
the factor exceeds 1 the requested decode dimensions passed to the fetch are
the ceiling-divided `ceil(width/factor)` and `ceil(height/factor)` (no size is
requested at factor 1). -/
theorem calculateDownsamplingFactor_thresholds :
    calculateDownsamplingFactor 2500 2000 = 4 ∧
    calculateDownsamplingFactor 1500 1500 = 2 ∧
    calculateDownsamplingFactor 1000 1000 = 1 ∧
    (∀ w h : ℕ,
      (4000000 < w * h → calculateDownsamplingFactor w h = 4) ∧
      (w * h ≤ 4000000 → 2000000 < w * h → calculateDownsamplingFactor w h = 2) ∧
      (w * h ≤ 2000000 → calculateDownsamplingFactor w h = 1)) ∧
    (∀ w h : ℕ, calculateDownsamplingFactor w h ≤ 1 → readRequestSize w h = none) ∧
    (∀ w h : ℕ, 1 < calculateDownsamplingFactor w h →
      readRequestSize w h =
        some (⌈(w : ℚ) / (calculateDownsamplingFactor w h : ℚ)⌉.toNat,
              ⌈(h : ℚ) / (calculateDownsamplingFactor w h : ℚ)⌉.toNat)) ∧
    (∀ w h dw dh : ℕ, 1 < calculateDownsamplingFactor w h →
      readRequestSize w h = some (dw, dh) →
      (w ≤ dw * calculateDownsamplingFactor w h ∧
        dw * calculateDownsamplingFactor w h < w + calculateDownsamplingFactor w h) ∧
      (h ≤ dh * calculateDownsamplingFactor w h ∧
        dh * calculateDownsamplingFactor w h < h + calculateDownsamplingFactor w h)) := by
  refine ⟨by decide, by decide, by decide, ?_, ?_, ?_, ?_⟩
  · intro w h
    refine ⟨?_, ?_, ?_⟩
    · intro hgt
      unfold calculateDownsamplingFactor
      rw [if_pos hgt]
    · intro hle hgt
      unfold calculateDownsamplingFactor
      rw [if_neg (not_lt.mpr hle), if_pos hgt]
    · intro hle
      unfold calculateDownsamplingFactor
      rw [if_neg (not_lt.mpr (le_trans hle (by norm_num))),
          if_neg (not_lt.mpr hle)]
  · intro w h hle
    unfold readRequestSize
    rw [if_neg (not_lt.mpr hle)]
  · intro w h hgt
    unfold readRequestSize
    rw [if_pos hgt]
  · intro w h dw dh hgt hread
    unfold readRequestSize at hread
    rw [if_pos hgt] at hread
    have hfq : (0 : ℚ) < (calculateDownsamplingFactor w h : ℚ) := by
      have : (0 : ℕ) < calculateDownsamplingFactor w h := lt_trans one_pos hgt
      exact_mod_cast this
    have hpair := Option.some.inj hread
    have hdw : dw = ⌈(w : ℚ) / (calculateDownsamplingFactor w h : ℚ)⌉.toNat :=
      (congrArg Prod.fst hpair).symm
    have hdh : dh = ⌈(h : ℚ) / (calculateDownsamplingFactor w h : ℚ)⌉.toNat :=
      (congrArg Prod.snd hpair).symm
    have hwnn : (0 : ℚ) ≤ (w : ℚ) / (calculateDownsamplingFactor w h : ℚ) :=
      div_nonneg (by exact_mod_cast Nat.zero_le w) (le_of_lt hfq)
    have hhnn : (0 : ℚ) ≤ (h : ℚ) / (calculateDownsamplingFactor w h : ℚ) :=
      div_nonneg (by exact_mod_cast Nat.zero_le h) (le_of_lt hfq)
    have hwc : ((dw : ℤ) : ℚ) = (⌈(w : ℚ) / (calculateDownsamplingFactor w h : ℚ)⌉ : ℚ) := by
      rw [hdw]
      norm_cast
      exact Int.toNat_of_nonneg (Int.ceil_nonneg hwnn)
    have hhc : ((dh : ℤ) : ℚ) = (⌈(h : ℚ) / (calculateDownsamplingFactor w h : ℚ)⌉ : ℚ) := by
      rw [hdh]
      norm_cast
      exact Int.toNat_of_nonneg (Int.ceil_nonneg hhnn)
    have hle1 : (w : ℚ) / (calculateDownsamplingFactor w h : ℚ) ≤ (dw : ℚ) := by
      rw [show ((dw : ℚ)) = (((dw : ℤ) : ℚ)) by norm_cast, hwc]
      exact Int.le_ceil _
    have hlt1 : (dw : ℚ) < (w : ℚ) / (calculateDownsamplingFactor w h : ℚ) + 1 := by
      rw [show ((dw : ℚ)) = (((dw : ℤ) : ℚ)) by norm_cast, hwc]
      exact Int.ceil_lt_add_one _
    have hle2 : (h : ℚ) / (calculateDownsamplingFactor w h : ℚ) ≤ (dh : ℚ) := by
      rw [show ((dh : ℚ)) = (((dh : ℤ) : ℚ)) by norm_cast, hhc]
      exact Int.le_ceil _
    have hlt2 : (dh : ℚ) < (h : ℚ) / (calculateDownsamplingFactor w h : ℚ) + 1 := by
      rw [show ((dh : ℚ)) = (((dh : ℤ) : ℚ)) by norm_cast, hhc]
      exact Int.ceil_lt_add_one _
    rw [div_le_iff₀ hfq] at hle1 hle2
    have hcw : (w : ℚ) / (calculateDownsamplingFactor w h : ℚ) *
        (calculateDownsamplingFactor w h : ℚ) = (w : ℚ) :=
      div_mul_cancel₀ _ (ne_of_gt hfq)
    have hch : (h : ℚ) / (calculateDownsamplingFactor w h : ℚ) *
        (calculateDownsamplingFactor w h : ℚ) = (h : ℚ) :=
      div_mul_cancel₀ _ (ne_of_gt hfq)
    refine ⟨⟨by exact_mod_cast hle1, ?_⟩, by exact_mod_cast hle2, ?_⟩
    · have hq : (dw : ℚ) * (calculateDownsamplingFactor w h : ℚ) <
          (w : ℚ) + (calculateDownsamplingFactor w h : ℚ) := by nlinarith
      exact_mod_cast hq
    · have hq : (dh : ℚ) * (calculateDownsamplingFactor w h : ℚ) <
          (h : ℚ) + (calculateDownsamplingFactor w h : ℚ) := by nlinarith
      exact_mod_cast hq

/-- Witness for C5: at a 1,000×1,000 window the factor is 1 and no downsampled
decode size is requested. -/
theorem calculateDownsamplingFactor_thresholds_witness :
    readRequestSize 1000 1000 = none :=
  calculateDownsamplingFactor_thresholds.2.2.2.2.1 1000 1000 (by decide)

/-! ### Request-coordinator lemmas -/

lemma requestStep_eq_processed (k : String) (s : CalcState) (h1 : s.isNBRProcessed = true) :
    requestStep k s = (s, RequestAction.skippedAlreadyProcessed) := by
  unfold requestStep
  rw [if_pos h1]

lemma requestStep_eq_cacheHit (k : String) (s : CalcState) (e : CacheEntry)
    (h1 : s.isNBRProcessed = false) (hc : cacheHit k s = some e) :
    requestStep k s = (s, RequestAction.servedFromCache e) := by
  unfold requestStep
  rw [if_neg (by rw [h1]; exact Bool.false_ne_true), hc]

lemma requestStep_eq_inFlight (k : String) (s : CalcState)
    (h1 : s.isNBRProcessed = false) (hc : cacheHit k s = none)
    (h2 : s.calculationKey = some k) :
    requestStep k s = (s, RequestAction.skippedInFlight) := by
  unfold requestStep
  rw [if_neg (by rw [h1]; exact Bool.false_ne_true), hc]
  exact if_pos h2

lemma requestStep_eq_start (k : String) (s : CalcState)
    (h1 : s.isNBRProcessed = false) (hc : cacheHit k s = none)
    (h2 : s.calculationKey ≠ some k) :
    requestStep k s =
      ({ s with calculationKey := some k, isNBRProcessed := true, isLoading := true },
       RequestAction.startedComputation) := by
  unfold requestStep
  rw [if_neg (by rw [h1]; exact Bool.false_ne_true), hc]
  exact if_neg h2

/-- C6: request deduplication is by computation key — a fresh key starts
exactly one computation (the immediately repeated identical request is skipped
because the state is already marked processed); a cache hit for the key is
served synchronously with no state change and no new computation; and a
request whose key is already in flight is skipped without starting another
computation. -/
theorem requestStep_dedup :
    (∀ (k : String) (s : CalcState),
      s.isNBRProcessed = false → cacheHit k s = none → s.calculationKey ≠ some k →
      (requestStep k s).2 = RequestAction.startedComputation) ∧
    (∀ (k : String) (s : CalcState),
      (requestStep k s).2 = RequestAction.startedComputation →
      (requestStep k (requestStep k s).1).2 = RequestAction.skippedAlreadyProcessed) ∧
    (∀ (k : String) (s : CalcState) (e : CacheEntry),
      s.isNBRProcessed = false → cacheHit k s = some e →
      requestStep k s = (s, RequestAction.servedFromCache e)) ∧
    (∀ (k : String) (s : CalcState),
      s.isNBRProcessed = false → cacheHit k s = none → s.calculationKey = some k →
      requestStep k s = (s, RequestAction.skippedInFlight)) := by
  refine ⟨?_, ?_, requestStep_eq_cacheHit, requestStep_eq_inFlight⟩
  · intro k s h1 hc h2
    rw [requestStep_eq_start k s h1 hc h2]
  · intro k s h
    by_cases h1 : s.isNBRProcessed = true
    · rw [requestStep_eq_processed k s h1] at h
      exact absurd h (by simp)
    · have h1f : s.isNBRProcessed = false := by
        rwa [Bool.not_eq_true] at h1
      cases hc : cacheHit k s with
      | some e =>
        rw [requestStep_eq_cacheHit k s e h1f hc] at h
        exact absurd h (by simp)
      | none =>
        by_cases h2 : s.calculationKey = some k
        · rw [requestStep_eq_inFlight k s h1f hc h2] at h
          exact absurd h (by simp)
        · rw [requestStep_eq_start k s h1f hc h2, requestStep_eq_processed k _ rfl]

/-- Witness for C6: from the pristine state, the first request for key "k"
starts the computation and the immediately repeated identical request is
skipped. -/
theorem requestStep_dedup_witness :
    (requestStep "k" (⟨false, none, false, none⟩ : CalcState)).2 =
      RequestAction.startedComputation ∧
    (requestStep "k" (requestStep "k" (⟨false, none, false, none⟩ : CalcState)).1).2 =
      RequestAction.skippedAlreadyProcessed := by
  have h1 := requestStep_dedup.1 "k" ⟨false, none, false, none⟩ rfl rfl (by simp)
  exact ⟨h1, requestStep_dedup.2.1 "k" ⟨false, none, false, none⟩ h1⟩

/-- C7: evaluation of the failure path at the failing input. Starting from the
pristine state, a request for key "k" starts a computation; when it fails, the
`catch` handler clears the loading and processed flags but leaves
`calculationKey = some "k"` behind, so the subsequent identical request is
answered with the in-flight skip ("Calculation already in progress") instead
of restarting the computation from idle as the spec requires. -/
theorem failStep_blocks_retry :
    (failStep (requestStep "k" (⟨false, none, false, none⟩ : CalcState)).1).isLoading = false ∧
    (failStep (requestStep "k" (⟨false, none, false, none⟩ : CalcState)).1).isNBRProcessed
      = false ∧
    (failStep (requestStep "k" (⟨false, none, false, none⟩ : CalcState)).1).calculationKey
      = some "k" ∧
    requestStep "k" (failStep (requestStep "k" (⟨false, none, false, none⟩ : CalcState)).1) =
      (failStep (requestStep "k" (⟨false, none, false, none⟩ : CalcState)).1,
       RequestAction.skippedInFlight) :=
  ⟨rfl, rfl, rfl, rfl⟩

/-- C8 counterexample: a cache entry for key "a" is evicted as soon as a
computation for the different key "b" completes — the completed entry replaces
the single cache slot, the later request for "a" misses the cache and starts a
recomputation. -/
theorem completeStep_evicts_other_key :
    cacheHit "a" (completeStep "b" [] 0 0 0 0 []
        (⟨false, none, false, some ⟨"a", [], 0, 0, 0, 0, []⟩⟩ : CalcState)) = none ∧
    (completeStep "b" [] 0 0 0 0 []
        (⟨false, none, false, some ⟨"a", [], 0, 0, 0, 0, []⟩⟩ : CalcState)).cache ≠
      some ⟨"a", [], 0, 0, 0, 0, []⟩ ∧
    (requestStep "a" (completeStep "b" [] 0 0 0 0 []
        (⟨false, none, false, some ⟨"a", [], 0, 0, 0, 0, []⟩⟩ : CalcState))).2 =
      RequestAction.startedComputation :=
  ⟨rfl, by decide, rfl⟩

/-- C8 (amended): the cache is a single slot — an entry survives requests,
failures and the input/visibility resets, but is replaced whole (never merged)
whenever any computation completes, whether for the same key or a different
one. -/
theorem cache_single_slot_replacement :
    (∀ (k : String) (s : CalcState), ((requestStep k s).1).cache = s.cache) ∧
    (∀ s : CalcState, (failStep s).cache = s.cache) ∧
    (∀ s : CalcState, (inputsChangedStep s).cache = s.cache) ∧
    (∀ s : CalcState, (hiddenStep s).cache = s.cache) ∧
    (∀ (k : String) (vs : List ℚ) (mn mx : ℚ) (w h : ℕ) (e : List ℚ) (s : CalcState),
      (completeStep k vs mn mx w h e s).cache = some ⟨k, vs, mn, mx, w, h, e⟩) := by
  refine ⟨?_, fun s => rfl, fun s => rfl, fun s => rfl, fun k vs mn mx w h e s => rfl⟩
  intro k s
  by_cases h1 : s.isNBRProcessed = true
  · rw [requestStep_eq_processed k s h1]
  · have h1f : s.isNBRProcessed = false := by
      rwa [Bool.not_eq_true] at h1
    cases hc : cacheHit k s with
    | some e => rw [requestStep_eq_cacheHit k s e h1f hc]
    | none =>
      by_cases h2 : s.calculationKey = some k
      · rw [requestStep_eq_inFlight k s h1f hc h2]
      · rw [requestStep_eq_start k s h1f hc h2]

/-- C9 counterexample: two distinct (nirUrl, swirUrl, extent) tuples whose
dash-joined serializations coincide — `("a-b", "c", [])` and
`("a", "b-c", [])` both serialize to `"a-b-c-"`. -/
theorem computationKey_collision :
    computationKey "a-b" "c" [] = computationKey "a" "b-c" [] ∧
    ("a-b", "c", ([] : List String)) ≠ ("a", "b-c", ([] : List String)) :=
  ⟨rfl, by decide⟩

/-- C9 (amended): the key serialization is deterministic — equal tuples always
give equal keys — but it is not injective: because the components are joined
with "-" without escaping, distinct tuples can serialize to the same key, so
coalescing by key can conflate two distinct computations. -/
theorem computationKey_not_injective :
    (∀ n1 s1 e1 n2 s2 e2, n1 = n2 → s1 = s2 → e1 = e2 →
      computationKey n1 s1 e1 = computationKey n2 s2 e2) ∧
    ¬ Function.Injective
        (fun t : String × String × List String => computationKey t.1 t.2.1 t.2.2) := by
  constructor
  · intro n1 s1 e1 n2 s2 e2 h1 h2 h3
    rw [h1, h2, h3]
  · intro hinj
    have h := @hinj ("a-b", "c", []) ("a", "b-c", []) rfl
    exact absurd h (by decide)

/-- Witness for C9 (amended): the determinism direction applied at a concrete
tuple. -/
theorem computationKey_not_injective_witness :
    computationKey "u" "v" ["1", "2"] = computationKey "u" "v" ["1", "2"] :=
  computationKey_not_injective.1 "u" "v" ["1", "2"] "u" "v" ["1", "2"] rfl rfl rfl
